import Mathlib

/-!
Shallow embedding of the embedded task store of the repository (the
`TaskDatabase` class of the client-resident mode): a sql.js engine whose
whole state is re-serialized into the single localStorage key
`taskDatabase` after every mutation.  The single table `tasks` has
`id INTEGER PRIMARY KEY AUTOINCREMENT`; every other column is `TEXT` and
the schema carries no CHECK constraint, so arbitrary strings can be
stored in `status` and `priority`.  `datetime('now')` values are modelled
as the string value of a clock passed explicitly to each operation.
SQLite compares `TEXT` with the BINARY collation (byte-wise memcmp on
UTF-8, which coincides with code-point-wise lexicographic comparison);
`charListLe` below realises exactly that order.
-/

namespace TaskDb

/-- Row of the `tasks` table.  `status` and `priority` are plain `TEXT`
columns: the schema restricts neither to an enum. -/
structure Task where
  id : Nat
  title : String
  description : String
  status : String
  priority : String
  user_id : String
  created_at : String
  updated_at : String
deriving Repr, DecidableEq

/-- In-memory engine state: the rows of `tasks` in table (insertion) order,
together with the AUTOINCREMENT sequence, which is at least every id ever
assigned and is never reused after a delete. -/
structure DbState where
  rows : List Task
  seq : Nat
deriving Repr, DecidableEq

/-- The engine instance together with the durable slot: the localStorage
key `taskDatabase`, holding the encoded byte sequence of the last saved
snapshot when present. -/
structure Store where
  db : DbState
  slot : Option (List Nat)
deriving Repr, DecidableEq

/-- Code-point-wise lexicographic comparison of character lists, the order
SQLite's BINARY collation gives to `TEXT` values. -/
def charListLe : List Char → List Char → Bool
  | [], _ => true
  | _ :: _, [] => false
  | a :: as, b :: bs =>
    if a.toNat < b.toNat then true
    else if b.toNat < a.toNat then false
    else charListLe as bs

/-- BINARY-collation comparison of two `TEXT` values. -/
def strLe (a b : String) : Bool :=
  charListLe a.data b.data

/-- Length-prefixed byte encoding of one `TEXT` value inside the engine
export. -/
def encodeStr (s : String) : List Nat :=
  s.data.length :: s.data.map Char.toNat

/-- Decoder for `encodeStr`, consuming a prefix of the byte list. -/
def decodeStr : List Nat → Option (String × List Nat)
  | [] => none
  | n :: rest =>
    if n ≤ rest.length then
      some (String.mk ((rest.take n).map Char.ofNat), rest.drop n)
    else none

/-- Byte encoding of one row inside the engine export. -/
def encodeTask (t : Task) : List Nat :=
  t.id :: (encodeStr t.title ++ (encodeStr t.description ++ (encodeStr t.status ++
    (encodeStr t.priority ++ (encodeStr t.user_id ++ (encodeStr t.created_at ++
      encodeStr t.updated_at))))))

/-- Decoder for `encodeTask`, consuming a prefix of the byte list. -/
def decodeTask : List Nat → Option (Task × List Nat)
  | [] => none
  | i :: rest => do
    let (title, r1) ← decodeStr rest
    let (description, r2) ← decodeStr r1
    let (status, r3) ← decodeStr r2
    let (priority, r4) ← decodeStr r3
    let (uid, r5) ← decodeStr r4
    let (ca, r6) ← decodeStr r5
    let (ua, r7) ← decodeStr r6
    some (⟨i, title, description, status, priority, uid, ca, ua⟩, r7)

/-- Byte encoding of the row sequence inside the engine export. -/
def encodeRows : List Task → List Nat
  | [] => []
  | t :: ts => encodeTask t ++ encodeRows ts

/-- Decoder for `encodeRows`, reading the given number of rows. -/
def decodeRows : Nat → List Nat → Option (List Task × List Nat)
  | 0, l => some ([], l)
  | n + 1, l => do
    let (t, r) ← decodeTask l
    let (ts, r2) ← decodeRows n r
    some (t :: ts, r2)

/-- Byte serialization of the whole engine state, modelling `db.export()`:
the AUTOINCREMENT sequence, the row count, then the rows. -/
def dbExport (db : DbState) : List Nat :=
  db.seq :: db.rows.length :: encodeRows db.rows

/-- Reconstruction of engine state from exported bytes, modelling
`new SQL.Database(uint8Array)`; bytes that are not a valid export fail. -/
def dbImport : List Nat → Option DbState
  | seq :: cnt :: rest =>
    match decodeRows cnt rest with
    | some (rows, []) => some { rows := rows, seq := seq }
    | _ => none
  | _ => none

/-- Value written under the durable key, modelling
`localStorage.setItem('taskDatabase', JSON.stringify(Array.from(this.db.export())))`;
the JSON round-trip on a number array is the identity, so the stored value
is the exported byte list itself. -/
def saveToLocalStorage (db : DbState) : List Nat :=
  dbExport db

/-- Lazy start-up of the engine (the source's one-shot init together with
its private schema step): load the snapshot from the durable slot when one
is present — a stored value that cannot be decoded makes start-up fail,
with no fallback to an empty database — else start empty; then
`CREATE TABLE IF NOT EXISTS` (a no-op on a loaded snapshot, the empty
table on a fresh engine) and save. -/
def initializeStore (slot : Option (List Nat)) : Except String Store :=
  match slot with
  | none =>
    let db : DbState := { rows := [], seq := 0 }
    .ok { db := db, slot := some (saveToLocalStorage db) }
  | some bytes =>
    match dbImport bytes with
    | none => .error "could not load database snapshot"
    | some db => .ok { db := db, slot := some (saveToLocalStorage db) }

/-- `SELECT * FROM tasks WHERE id = ?` — the first matching row, if any. -/
def getTaskById (db : DbState) (id : Nat) : Option Task :=
  db.rows.find? (fun t => t.id == id)

/-- `INSERT INTO tasks (title, description, priority, user_id, created_at,
updated_at) VALUES (?, ?, ?, ?, datetime('now'), datetime('now'))`,
followed by `saveToLocalStorage` and a re-read of the new row through
`last_insert_rowid()`.  No argument is validated; `status` takes its
schema default `pending`; AUTOINCREMENT assigns the next sequence value
as the id. -/
def createTask (s : Store) (title description priority userId now : String) :
    Store × Option Task :=
  let t : Task :=
    { id := s.db.seq + 1, title := title, description := description,
      status := "pending", priority := priority, user_id := userId,
      created_at := now, updated_at := now }
  let db : DbState := { rows := s.db.rows ++ [t], seq := s.db.seq + 1 }
  ({ db := db, slot := some (saveToLocalStorage db) }, getTaskById db (s.db.seq + 1))

/-- Comparator realised by `ORDER BY created_at DESC`: a row sorts no later
than another when its `created_at` is at least the other's in the BINARY
text order.  The query has no id tiebreak; the engine sorts the table-scan
sequence stably, so rows with equal `created_at` keep scan (insertion)
order. -/
def createdAtGe (a b : Task) : Prop :=
  strLe b.created_at a.created_at = true

instance : DecidableRel createdAtGe := fun a b =>
  inferInstanceAs (Decidable (strLe b.created_at a.created_at = true))

/-- `SELECT * FROM tasks WHERE user_id = ? ORDER BY created_at DESC`. -/
def getAllTasks (db : DbState) (userId : String) : List Task :=
  List.insertionSort createdAtGe (db.rows.filter (fun t => t.user_id == userId))

/-- Columns of the `tasks` table. -/
def taskColumns : List String :=
  ["id", "title", "description", "status", "priority", "user_id", "created_at", "updated_at"]

/-- One assignment `f = ?` of the SET clause applied to one row.  Every
actual column is assignable, because the source interpolates the
caller-supplied field names directly into the SET clause.  (`id` has
INTEGER affinity, so a digit string is converted; a non-numeric value for
`id` is outside the model and leaves the field unchanged.) -/
def setColumn (t : Task) (f v : String) : Task :=
  if f = "title" then { t with title := v }
  else if f = "description" then { t with description := v }
  else if f = "status" then { t with status := v }
  else if f = "priority" then { t with priority := v }
  else if f = "user_id" then { t with user_id := v }
  else if f = "created_at" then { t with created_at := v }
  else if f = "updated_at" then { t with updated_at := v }
  else if f = "id" then { t with id := (v.toNat?).getD t.id }
  else t

/-- Application of the whole SET clause, in clause order, to one row. -/
def applyUpdates (t : Task) (updates : List (String × String)) : Task :=
  updates.foldl (fun a fv => setColumn a fv.1 fv.2) t

/-- `UPDATE tasks SET <fields> = ?, updated_at = datetime('now') WHERE id = ?`
as the source builds it from the keys and values of its argument object.
With no fields the source returns the current row without running any
statement and without saving.  A field name that is not a column makes the
prepare step fail (sql.js raises "no such column") before anything runs.
Otherwise every supplied assignment is applied to the rows matching `id`,
`updated_at` is set last, the state is saved and the row is re-read. -/
def updateTask (s : Store) (id : Nat) (updates : List (String × String)) (now : String) :
    Except String (Store × Option Task) :=
  if updates.isEmpty then .ok (s, getTaskById s.db id)
  else
    match updates.find? (fun fv => !(taskColumns.contains fv.1)) with
    | some fv => .error ("no such column: " ++ fv.1)
    | none =>
      let rows := s.db.rows.map (fun t =>
        if t.id == id then { applyUpdates t updates with updated_at := now } else t)
      let db : DbState := { rows := rows, seq := s.db.seq }
      .ok ({ db := db, slot := some (saveToLocalStorage db) }, getTaskById db id)

/-- `DELETE FROM tasks WHERE id = ?`, then save; the source returns `true`
unconditionally, whether or not a row was removed. -/
def deleteTask (s : Store) (id : Nat) : Store × Bool :=
  let db : DbState := { rows := s.db.rows.filter (fun t => !(t.id == id)), seq := s.db.seq }
  ({ db := db, slot := some (saveToLocalStorage db) }, true)

/-! Concrete fixtures used by the counterexamples and witnesses. -/

/-- Sample clock value for a first write. -/
def ts0 : String := "2025-01-01 10:00:00"

/-- Sample clock value for a later write. -/
def ts2 : String := "2025-01-02 11:00:00"

/-- Row produced by the canonical scenario `create("Buy milk", "2% milk", "low", "u1")`. -/
def row1 : Task := ⟨1, "Buy milk", "2% milk", "pending", "low", "u1", ts0, ts0⟩

/-- Engine state holding exactly `row1`. -/
def db1 : DbState := ⟨[row1], 1⟩

/-- Saved store holding exactly `row1`. -/
def store1 : Store := ⟨db1, some (saveToLocalStorage db1)⟩

/-- Engine state of a fresh database. -/
def emptyDbState : DbState := ⟨[], 0⟩

/-- Saved store of a fresh database, as produced by first-time start-up. -/
def emptyStore : Store := ⟨emptyDbState, some (saveToLocalStorage emptyDbState)⟩

/-- First of two rows of the same user sharing one `created_at`. -/
def tieA : Task := ⟨1, "A", "d", "pending", "low", "u1", ts0, ts0⟩

/-- Second of two rows of the same user sharing one `created_at`. -/
def tieB : Task := ⟨2, "B", "d", "pending", "low", "u1", ts0, ts0⟩

/-- Engine state holding the two tied rows in insertion order. -/
def dbTie : DbState := ⟨[tieA, tieB], 2⟩

/-- Engine state after `update(1, {status: "completed"})` on `db1`. -/
def dbUpd : DbState := ⟨[⟨1, "Buy milk", "2% milk", "completed", "low", "u1", ts0, ts2⟩], 1⟩

/-- Store after `update(1, {status: "completed"})` on `store1`. -/
def storeUpd : Store := ⟨dbUpd, some (saveToLocalStorage dbUpd)⟩

/-! Helper lemmas: the snapshot codec round-trips, the BINARY text order is
total and transitive, the stable sort keeps ties in scan order, and a
freshly appended row is found by its new id. -/

/-- Decoding undoes the length-prefixed string encoding. -/
theorem decodeStr_encodeStr (s : String) (rest : List Nat) :
    decodeStr (encodeStr s ++ rest) = some (s, rest) := by
  obtain ⟨d⟩ := s
  simp only [encodeStr, decodeStr, List.cons_append]
  rw [if_pos]
  · rw [List.take_left' (by simp), List.drop_left' (by simp)]
    simp only [List.map_map]
    rw [show Char.ofNat ∘ Char.toNat = id from funext Char.ofNat_toNat, List.map_id]
  · simp

/-- Decoding undoes the row encoding. -/
theorem decodeTask_encodeTask (t : Task) (rest : List Nat) :
    decodeTask (encodeTask t ++ rest) = some (t, rest) := by
  simp [encodeTask, decodeTask, List.append_assoc, decodeStr_encodeStr]

/-- Decoding undoes the row-sequence encoding. -/
theorem decodeRows_encodeRows (rows : List Task) :
    ∀ rest : List Nat, decodeRows rows.length (encodeRows rows ++ rest) = some (rows, rest) := by
  induction rows with
  | nil => intro rest; simp [encodeRows, decodeRows]
  | cons t ts ih =>
    intro rest
    simp [encodeRows, decodeRows, List.append_assoc, decodeTask_encodeTask, ih]

/-- Importing an exported engine state reproduces it exactly. -/
theorem dbImport_dbExport (db : DbState) : dbImport (dbExport db) = some db := by
  have h := decodeRows_encodeRows db.rows []
  rw [List.append_nil] at h
  simp [dbImport, dbExport, h]

/-- Reflexivity of the BINARY text comparison. -/
theorem charListLe_refl : ∀ l : List Char, charListLe l l = true := by
  intro l
  induction l with
  | nil => rfl
  | cons a l ih => simp [charListLe, ih]

/-- Totality of the BINARY text comparison. -/
theorem charListLe_total : ∀ as bs : List Char, charListLe as bs = true ∨ charListLe bs as = true := by
  intro as
  induction as with
  | nil => intro bs; left; rfl
  | cons a as ih =>
    intro bs
    cases bs with
    | nil => right; rfl
    | cons b bs =>
      by_cases h1 : a.toNat < b.toNat
      · left; simp [charListLe, h1]
      · by_cases h2 : b.toNat < a.toNat
        · right; simp [charListLe, h2]
        · rcases ih bs with h | h
          · left; simp [charListLe, h1, h2, h]
          · right; simp [charListLe, h1, h2, h]

/-- Transitivity of the BINARY text comparison. -/
theorem charListLe_trans :
    ∀ as bs cs : List Char, charListLe as bs = true → charListLe bs cs = true →
      charListLe as cs = true := by
  intro as
  induction as with
  | nil => intro bs cs h1 h2; rfl
  | cons a as ih =>
    intro bs cs h1 h2
    cases bs with
    | nil => simp [charListLe] at h1
    | cons b bs =>
      cases cs with
      | nil => simp [charListLe] at h2
      | cons c cs =>
        by_cases hab : a.toNat < b.toNat
        · by_cases hbc : b.toNat < c.toNat
          · have hac : a.toNat < c.toNat := lt_trans hab hbc
            simp [charListLe, hac]
          · by_cases hcb : c.toNat < b.toNat
            · simp [charListLe, hbc, hcb] at h2
            · have hac : a.toNat < c.toNat := by omega
              simp [charListLe, hac]
        · by_cases hba : b.toNat < a.toNat
          · simp [charListLe, hab, hba] at h1
          · simp only [charListLe, if_neg hab, if_neg hba] at h1
            by_cases hbc : b.toNat < c.toNat
            · have hac : a.toNat < c.toNat := by omega
              simp [charListLe, hac]
            · by_cases hcb : c.toNat < b.toNat
              · simp [charListLe, hbc, hcb] at h2
              · simp only [charListLe, if_neg hbc, if_neg hcb] at h2
                have hac : ¬ a.toNat < c.toNat := by omega
                have hca : ¬ c.toNat < a.toNat := by omega
                simp only [charListLe, if_neg hac, if_neg hca]
                exact ih bs cs h1 h2

instance : IsTotal Task createdAtGe :=
  ⟨fun a b => charListLe_total b.created_at.data a.created_at.data⟩

instance : IsTrans Task createdAtGe :=
  ⟨fun _ _ _ h1 h2 => charListLe_trans _ _ _ h2 h1⟩

/-- Inserting a row whose key equals `k` puts it in front of every stored
row with key `k`: the rows skipped by the insertion all have strictly
larger keys. -/
theorem filter_orderedInsert_key (k : String) (a : Task) (ha : a.created_at = k) :
    ∀ l : List Task,
      (List.orderedInsert createdAtGe a l).filter (fun t => t.created_at == k) =
        a :: l.filter (fun t => t.created_at == k) := by
  intro l
  induction l with
  | nil => simp [List.orderedInsert, ha]
  | cons b l ih =>
    rw [List.orderedInsert]
    by_cases h : createdAtGe a b
    · rw [if_pos h]
      simp [List.filter_cons, ha]
    · rw [if_neg h]
      have hbk : (b.created_at == k) = false := by
        apply beq_eq_false_iff_ne.mpr
        intro he
        apply h
        show strLe b.created_at a.created_at = true
        rw [he, ha]
        exact charListLe_refl k.data
      simp [List.filter_cons, hbk, ih]

/-- Inserting a row whose key differs from `k` does not disturb the
`k`-keyed subsequence. -/
theorem filter_orderedInsert_ne (k : String) (a : Task) (ha : ¬ a.created_at = k) :
    ∀ l : List Task,
      (List.orderedInsert createdAtGe a l).filter (fun t => t.created_at == k) =
        l.filter (fun t => t.created_at == k) := by
  have hak : (a.created_at == k) = false := beq_eq_false_iff_ne.mpr ha
  intro l
  induction l with
  | nil => simp [List.orderedInsert, hak]
  | cons b l ih =>
    rw [List.orderedInsert]
    by_cases h : createdAtGe a b
    · rw [if_pos h]
      simp [List.filter_cons, hak]
    · rw [if_neg h]
      simp only [List.filter_cons, ih]

/-- Stability of the engine sort: for every key, the rows carrying that key
come out of the sort in exactly their table-scan order. -/
theorem filter_insertionSort_eq (k : String) :
    ∀ l : List Task,
      (List.insertionSort createdAtGe l).filter (fun t => t.created_at == k) =
        l.filter (fun t => t.created_at == k) := by
  intro l
  induction l with
  | nil => rfl
  | cons a l ih =>
    rw [List.insertionSort]
    by_cases ha : a.created_at = k
    · rw [filter_orderedInsert_key k a ha, ih, List.filter_cons,
        if_pos (by simp [ha])]
    · rw [filter_orderedInsert_ne k a ha, ih, List.filter_cons,
        if_neg (by simp [ha])]

/-- A search for the fresh id `n + 1` skips every row of a table whose ids
are all at most `n` and finds the appended row. -/
theorem find?_append_fresh (rows : List Task) (n : Nat) (t : Task)
    (h : ∀ x ∈ rows, x.id ≤ n) (ht : t.id = n + 1) :
    (rows ++ [t]).find? (fun x => x.id == n + 1) = some t := by
  induction rows with
  | nil => simp [List.find?, ht]
  | cons a l ih =>
    have ha : (a.id == n + 1) = false := by
      have := h a (List.mem_cons_self a l)
      simp only [beq_eq_false_iff_ne, ne_eq]
      omega
    simp only [List.cons_append, List.find?_cons, ha]
    exact ih (fun x hx => h x (List.mem_cons_of_mem a hx))

/-- C1: contrary to the claim, `createTask` performs no validation.  Called
with an empty title, an empty description and a priority outside
{low, medium, high} it still inserts a row carrying exactly those values,
overwrites the durable slot with the new snapshot, and returns the
inserted row — it does not fail with a validation error and it does not
leave the table unchanged. -/
theorem createTask_accepts_invalid_input :
    (createTask emptyStore "" "" "urgent" "u1" ts0).1.db.rows =
      [⟨1, "", "", "pending", "urgent", "u1", ts0, ts0⟩] ∧
    (createTask emptyStore "" "" "urgent" "u1" ts0).1.slot =
      some (saveToLocalStorage ⟨[⟨1, "", "", "pending", "urgent", "u1", ts0, ts0⟩], 1⟩) ∧
    (createTask emptyStore "" "" "urgent" "u1" ts0).2 =
      some ⟨1, "", "", "pending", "urgent", "u1", ts0, ts0⟩ :=
  ⟨rfl, rfl, rfl⟩

/-- C2: contrary to the claim, `updateTask` does not validate `status`
against its enum — `update(1, {status: "archived"})` succeeds, stores the
out-of-enum value `archived` in the row and refreshes `updated_at`,
instead of failing with a validation error and leaving the row
unchanged. -/
theorem updateTask_accepts_invalid_status :
    updateTask store1 1 [("status", "archived")] ts2 =
      .ok (⟨⟨[⟨1, "Buy milk", "2% milk", "archived", "low", "u1", ts0, ts2⟩], 1⟩,
            some (saveToLocalStorage ⟨[⟨1, "Buy milk", "2% milk", "archived", "low", "u1", ts0, ts2⟩], 1⟩)⟩,
           some ⟨1, "Buy milk", "2% milk", "archived", "low", "u1", ts0, ts2⟩) := rfl

/-- C3: contrary to the claim, `updateTask` does not restrict the update to
{title, description, status, priority}: it interpolates every supplied
field name into the SET clause.  A supplied `user_id` is applied — the
stored `user_id` changes from `u1` to `u2` — and a name that is not a
column of `tasks` aborts the whole call with an engine error.  No field
name is silently ignored. -/
theorem updateTask_interpolates_field_names :
    updateTask store1 1 [("user_id", "u2")] ts2 =
      .ok (⟨⟨[⟨1, "Buy milk", "2% milk", "pending", "low", "u2", ts0, ts2⟩], 1⟩,
            some (saveToLocalStorage ⟨[⟨1, "Buy milk", "2% milk", "pending", "low", "u2", ts0, ts2⟩], 1⟩)⟩,
           some ⟨1, "Buy milk", "2% milk", "pending", "low", "u2", ts0, ts2⟩) ∧
    updateTask store1 1 [("not_a_column", "x")] ts2 =
      .error "no such column: not_a_column" :=
  ⟨rfl, rfl⟩

/-- C4 counterexample: two rows of the same user share `created_at`; the
query has no id tiebreak and the engine's stable sort keeps table-scan
order, so `getAllTasks` returns the LOWER id first — the claimed
higher-id-first tie order is false. -/
theorem getAllTasks_tie_lower_id_first :
    tieA.created_at = tieB.created_at ∧ tieA.user_id = tieB.user_id ∧
    (getAllTasks dbTie "u1").map Task.id = [1, 2] :=
  ⟨rfl, rfl, by decide⟩

/-- C9: a durable slot whose stored value cannot be decoded into an engine
snapshot makes start-up fail with an error; there is no fallback to an
empty database, so start-up never reports success over an empty table when
a corrupt snapshot was present. -/
theorem initializeStore_corrupt_snapshot_fatal (bytes : List Nat)
    (h : dbImport bytes = none) :
    initializeStore (some bytes) = .error "could not load database snapshot" := by
  have hred : initializeStore (some bytes) =
      match dbImport bytes with
      | none => .error "could not load database snapshot"
      | some db => .ok { db := db, slot := some (saveToLocalStorage db) } := rfl
  rw [hred, h]

/-- Witness for C9: the one-byte stored value `[7]` is not a valid
snapshot, and start-up on it fails. -/
theorem initializeStore_corrupt_snapshot_fatal_witness :
    initializeStore (some [7]) = .error "could not load database snapshot" :=
  initializeStore_corrupt_snapshot_fatal [7] (by decide)

/-- C4 (amended): `getAllTasks` returns exactly the rows whose `user_id`
equals the argument — a permutation of the user filter of the table, so
never another user's row — ordered by `created_at` descending; the query
has no id tiebreak, and rows with identical `created_at` appear in
table-scan (insertion) order, i.e. the lower id first, not the higher. -/
theorem getAllTasks_ordering_spec (db : DbState) (u : String) :
    (∀ t ∈ getAllTasks db u, t.user_id = u) ∧
    List.Perm (getAllTasks db u) (db.rows.filter (fun t => t.user_id == u)) ∧
    List.Sorted createdAtGe (getAllTasks db u) ∧
    ∀ k, (getAllTasks db u).filter (fun t => t.created_at == k) =
      (db.rows.filter (fun t => t.user_id == u)).filter (fun t => t.created_at == k) := by
  refine ⟨?_, ?_, ?_, ?_⟩
  · intro t ht
    have hmem : t ∈ db.rows.filter (fun t => t.user_id == u) :=
      (List.perm_insertionSort createdAtGe _).mem_iff.mp ht
    simpa using List.of_mem_filter hmem
  · exact List.perm_insertionSort createdAtGe _
  · exact List.sorted_insertionSort createdAtGe _
  · intro k
    exact filter_insertionSort_eq k _

/-- Witness for the amended C4 at a concrete table: the first tied row
belongs to the queried user. -/
theorem getAllTasks_ordering_spec_witness : tieA.user_id = "u1" :=
  (getAllTasks_ordering_spec dbTie "u1").1 tieA (by decide)

/-- C5: save followed by load is the identity on table contents: decoding
the saved byte sequence returns the very engine state that was exported,
and a fresh store started from the saved snapshot holds exactly the same
rows, field for field, as the original engine. -/
theorem saveToLocalStorage_roundtrip (db : DbState) :
    dbImport (saveToLocalStorage db) = some db ∧
    initializeStore (some (saveToLocalStorage db)) =
      .ok { db := db, slot := some (saveToLocalStorage db) } := by
  have h : dbImport (dbExport db) = some db := dbImport_dbExport db
  refine ⟨h, ?_⟩
  have hred : initializeStore (some (saveToLocalStorage db)) =
      match dbImport (saveToLocalStorage db) with
      | none => .error "could not load database snapshot"
      | some db2 => .ok { db := db2, slot := some (saveToLocalStorage db2) } := rfl
  rw [hred]
  rw [show dbImport (saveToLocalStorage db) = some db from h]

/-- C6: every mutating repository call that completes successfully leaves
the durable slot holding the serialization of the engine state that
resulted from it, written in-line before the call returns: unconditionally
for `createTask` and `deleteTask`, and for every successful `updateTask`
carrying at least one field.  (A field-less update mutates nothing and
writes nothing — it is a pure read, see C10.) -/
theorem mutations_write_snapshot (s : Store) (title description priority userId now : String)
    (id : Nat) (updates : List (String × String)) :
    (createTask s title description priority userId now).1.slot =
      some (saveToLocalStorage (createTask s title description priority userId now).1.db) ∧
    (deleteTask s id).1.slot = some (saveToLocalStorage (deleteTask s id).1.db) ∧
    (updates ≠ [] → ∀ s2 r, updateTask s id updates now = .ok (s2, r) →
      s2.slot = some (saveToLocalStorage s2.db)) := by
  refine ⟨rfl, rfl, ?_⟩
  intro hne s2 r h
  cases updates with
  | nil => exact absurd rfl hne
  | cons fv fvs =>
    simp only [updateTask, List.isEmpty_cons, Bool.false_eq_true, if_false] at h
    cases hfind : (fv :: fvs).find? (fun q => !(taskColumns.contains q.1)) with
    | some q => rw [hfind] at h; exact Except.noConfusion h
    | none =>
      rw [hfind] at h
      injection h with hpq
      injection hpq with h1 h2
      subst h1
      rfl

/-- Witness for C6: after the concrete update `update(1, {status: "completed"})`
the slot holds the serialization of the updated engine state. -/
theorem mutations_write_snapshot_witness :
    storeUpd.slot = some (saveToLocalStorage storeUpd.db) :=
  (mutations_write_snapshot store1 "t" "d" "low" "u1" ts2 1 [("status", "completed")]).2.2
    (by decide) storeUpd
    (some ⟨1, "Buy milk", "2% milk", "completed", "low", "u1", ts0, ts2⟩) rfl

/-- C7: `deleteTask` always reports success, deleting an id that matches no
row leaves the table exactly as it was, and delete is idempotent — a
second delete of the same id returns the same success result and the same
final store as the first. -/
theorem deleteTask_spec (s : Store) (id : Nat) :
    (deleteTask s id).2 = true ∧
    ((∀ t ∈ s.db.rows, t.id ≠ id) → (deleteTask s id).1.db.rows = s.db.rows) ∧
    deleteTask (deleteTask s id).1 id = deleteTask s id := by
  refine ⟨rfl, ?_, ?_⟩
  · intro h
    show s.db.rows.filter (fun t => !(t.id == id)) = s.db.rows
    apply List.filter_eq_self.mpr
    intro a ha
    simpa using h a ha
  · have hff : (s.db.rows.filter (fun t => !(t.id == id))).filter (fun t => !(t.id == id)) =
        s.db.rows.filter (fun t => !(t.id == id)) := by
      rw [List.filter_filter]
      simp [Bool.and_self]
    simp [deleteTask, hff]

/-- Witness for C7: deleting the absent id 5 from the one-row store keeps
its table unchanged. -/
theorem deleteTask_spec_witness :
    (deleteTask store1 5).1.db.rows = store1.db.rows :=
  (deleteTask_spec store1 5).2.1 (by decide)

/-- C8: for every valid input (non-empty title and description, priority in
its enum) and every reachable state (all stored ids at most the sequence
value, the AUTOINCREMENT invariant), `createTask` returns — and a
subsequent `getTaskById` on the new id re-reads — the record carrying
exactly the caller-supplied title, description, priority and user id, the
engine-assigned fresh id, and equal engine-assigned timestamps
(`created_at = updated_at`). -/
theorem createTask_then_read (s : Store) (title description priority userId now : String)
    (ht : title ≠ "") (hd : description ≠ "")
    (hp : priority = "low" ∨ priority = "medium" ∨ priority = "high")
    (hinv : ∀ x ∈ s.db.rows, x.id ≤ s.db.seq) :
    (createTask s title description priority userId now).2 =
      some ⟨s.db.seq + 1, title, description, "pending", priority, userId, now, now⟩ ∧
    getTaskById (createTask s title description priority userId now).1.db (s.db.seq + 1) =
      some ⟨s.db.seq + 1, title, description, "pending", priority, userId, now, now⟩ := by
  have key : getTaskById (createTask s title description priority userId now).1.db (s.db.seq + 1) =
      some ⟨s.db.seq + 1, title, description, "pending", priority, userId, now, now⟩ :=
    find?_append_fresh s.db.rows s.db.seq _ hinv rfl
  exact ⟨key, key⟩

/-- Witness for C8: the canonical scenario `create("Buy milk", "2% milk",
"low", "u1")` on the fresh store returns the expected record. -/
theorem createTask_then_read_witness :
    (createTask emptyStore "Buy milk" "2% milk" "low" "u1" ts0).2 =
      some ⟨emptyDbState.seq + 1, "Buy milk", "2% milk", "pending", "low", "u1", ts0, ts0⟩ :=
  (createTask_then_read emptyStore "Buy milk" "2% milk" "low" "u1" ts0
    (by decide) (by decide) (Or.inl rfl) (by decide)).1

/-- C10: an update carrying no fields is a pure read: the store — engine
state and durable slot alike — is left exactly as it was, no snapshot is
written, and the current row for the id (or none) is returned. -/
theorem updateTask_no_fields_pure_read (s : Store) (id : Nat) (now : String) :
    updateTask s id [] now = .ok (s, getTaskById s.db id) := rfl

end TaskDb
